import Mathlib

/-!
SplitMod: splitting a ProTracker module into song and sample parts

A shallow embedding of `src/splitmod.c` and the properties of it that the
specification states.

Conventions of the embedding

* A byte is a `Fin 256`; the module buffer `mod` is a `List Byte` and the C
  parameter `len` is its length.
* `size_t` has `w` bits (`Env.sizeBits`); every `size_t` operation is written
  with an explicit `% 2 ^ w`.  `unsigned int`, the type `%u` prints, has 32 bits.
* Reading outside the buffer is undefined behaviour in C.  A function of the
  embedding that would do so returns `none` in place of a return code.
* The C library is an explicit environment `Env` (which `malloc`, `fopen`,
  `ftell`, `fseek`, `fread` calls succeed, how many bytes a write call on an
  output stream takes and how many bytes reach the file when the stream is
  closed) and the file system, the buffer of the open output stream and the
  two console streams are an explicit `State` that every operation passes on.
* Output is buffered as in C: `fwrite` and `fprintf` return the count the
  stream took, the bytes reach the file when `fclose` flushes the stream, and
  the flush can store fewer bytes than the stream took.
-/

namespace Splitmod

/-- One `unsigned char`. -/
abbrev Byte := Fin 256

/-! ## The format analysis (lines 112-123) -/

/-- The loop of lines 113-117: `n` iterations remain, `i` is the loop counter,
`pattern` points at `mod[952 + i]`.  A read outside the buffer gives `none`. -/
def maxPatternLoop (mod : List Byte) : Nat → Nat → Nat → Option Nat
  | 0, _, maxPattern => some maxPattern
  | n + 1, i, maxPattern =>
    match mod[952 + i]? with
    | none => none
    | some p =>
      maxPatternLoop mod n (i + 1) (if p.val > maxPattern then p.val else maxPattern)

/-- The value of `maxPattern` after the loop: 128 iterations from `i = 0`,
`maxPattern = 0`. -/
def maxPattern (mod : List Byte) : Option Nat :=
  maxPatternLoop mod 128 0 0

/-- Line 120: `((size_t)(maxPattern + 1) << 10) + 1084`.  The sum
`maxPattern + 1` is an `int` (at most 256), the cast, the shift and the
addition are `size_t` operations of `w` bits. -/
def samplesOffsetOf (w : Nat) (maxPattern : Nat) : Nat :=
  ((((maxPattern + 1) % 2 ^ w) <<< 10) % 2 ^ w + 1084) % 2 ^ w

/-- Line 123: `len - samplesOffset` in `size_t` arithmetic of `w` bits. -/
def samplesSizeOf (w : Nat) (len samplesOffset : Nat) : Nat :=
  (((len : Int) - (samplesOffset : Int)) % ((2 : Int) ^ w)).toNat

/-- The `samplesOffset` that `SplitMod` computes for a buffer. -/
def samplesOffset (w : Nat) (mod : List Byte) : Option Nat :=
  (maxPattern mod).map (samplesOffsetOf w)

/-- The `samplesSize` that `SplitMod` computes for a buffer. -/
def samplesSize (w : Nat) (mod : List Byte) : Option Nat :=
  (samplesOffset w mod).map (samplesSizeOf w mod.length)

/-- The song region, as (offset, length): the arguments `mod`, `samplesOffset`
of the first `fwrite` (line 132). -/
def songRegion (w : Nat) (mod : List Byte) : Option (Nat × Nat) :=
  (samplesOffset w mod).map (fun so => (0, so))

/-- The sample region, as (offset, length): the arguments
`mod + samplesOffset`, `samplesSize` of the second `fwrite` (line 144). -/
def sampleRegion (w : Nat) (mod : List Byte) : Option (Nat × Nat) :=
  (samplesOffset w mod).map (fun so => (so, samplesSizeOf w mod.length so))

/-- The arrangement table: the 128 bytes at offsets 952 through 1079. -/
def arrangement (mod : List Byte) : List Nat :=
  ((mod.drop 952).take 128).map Fin.val

/-- The table maximum: the left fold of `max` from 0 over the arrangement
table. -/
def tableMax (mod : List Byte) : Nat :=
  (arrangement mod).foldl max 0

/-! ## The environment and the state -/

/-- What the C library does, as far as the program can observe it. -/
structure Env where
  /-- Number of bits of `size_t`. -/
  sizeBits : Nat
  /-- Does `fopen(path, "rb")` succeed on an existing file. -/
  canRead : String → Bool
  /-- Does the first `ftell` succeed (line 75). -/
  ftellStart : Bool
  /-- Does `fseek(file, 0, SEEK_END)` succeed (line 80). -/
  fseekEnd : Bool
  /-- Does the second `ftell` succeed (line 82). -/
  ftellEnd : Bool
  /-- Does `fseek(file, filePos, SEEK_SET)` succeed (line 86). -/
  fseekSet : Bool
  /-- Does `malloc(len)` succeed (line 50). -/
  mallocData : Bool
  /-- The most bytes `fread` delivers (line 53). -/
  freadLimit : Nat
  /-- Does `malloc(strlen(name) + 5)` succeed (line 105). -/
  mallocName : Bool
  /-- Does `fopen(path, "wb")` succeed. -/
  canCreate : String → Bool
  /-- The most bytes one `fwrite` or `fprintf` call on the stream of the file
  at a path takes; the call returns the count it took. -/
  accepts : String → Nat
  /-- The most bytes that reach the file at a path when `fclose` flushes its
  stream; what the stream took beyond that is lost. -/
  capacity : String → Nat

/-- The file system, the global `g_quiet` and the two console streams. -/
structure State where
  /-- The global of line 24. -/
  g_quiet : Bool
  /-- Content of each file that exists. -/
  files : String → Option (List Byte)
  /-- The paths of the successful `fopen(path, "wb")` calls, oldest first. -/
  opened : List String
  /-- The bytes the open output stream took and has not flushed yet. -/
  buffer : List Byte
  /-- What was printed to `stdout`, oldest first. -/
  stdout : List String
  /-- What was printed to `stderr`, oldest first. -/
  stderr : List String

/-- The state before the program starts: the given files, nothing printed. -/
def State.init (files : String → Option (List Byte)) : State :=
  { g_quiet := false, files := files, opened := [], buffer := [], stdout := [], stderr := [] }

/-- The bytes of a text. -/
def asciiBytes (t : String) : List Byte :=
  t.toList.map (fun c => Fin.ofNat c.toNat)

/-- The conversion `%u`: the argument as an `unsigned int`, in decimal. -/
def fmtU (n : Nat) : String :=
  Nat.repr (n % 2 ^ 32)

/-- A successful `fopen(path, "wb")` creates the file or truncates it and
starts an empty stream. -/
def fopenWb (env : Env) (path : String) (s : State) : Option State :=
  if env.canCreate path then
    some { s with
      files := fun p => if p = path then some [] else s.files p
      opened := s.opened ++ [path]
      buffer := [] }
  else
    none

/-- One `fwrite` or `fprintf` of `data` on the open stream of the file at
`path`: the stream takes the bytes the environment lets it take; the result
is the new state and the count the call returns. -/
def fput (env : Env) (path : String) (data : List Byte) (s : State) : State × Nat :=
  let taken := data.take (env.accepts path)
  ({ s with buffer := s.buffer ++ taken }, taken.length)

/-- The call `fclose(f)` on the stream of the file at `path`: the flush stores
the bytes the file has room for.  The source never looks at the result of
`fclose`, so the embedding returns the state alone. -/
def fclose (env : Env) (path : String) (s : State) : State :=
  { s with
    files := fun p => if p = path then some (s.buffer.take (env.capacity path)) else s.files p
    buffer := [] }

/-- The `n` bytes at `mod + off`, `none` when they are not all inside the
buffer. -/
def readBytes (mod : List Byte) (off n : Nat) : Option (List Byte) :=
  if off + n ≤ mod.length then some ((mod.drop off).take n) else none

/-- Printing one line to `stdout` unless `g_quiet` is set. -/
def info (s : State) (line : String) : State :=
  if !s.g_quiet then { s with stdout := s.stdout ++ [line] } else s

/-- The state after `fopen(path, "wb")` succeeded and, once the stream is
closed, the file holds `content`. -/
def created (s : State) (path : String) (content : List Byte) : State :=
  { s with
    files := fun p => if p = path then some content else s.files p
    opened := s.opened ++ [path]
    buffer := [] }

/-- The bytes the include file holds after the two `fprintf` calls of lines
156-157 and the `fclose` of line 158, when each call takes at most `acc`
bytes and at most `cap` bytes reach the file. -/
def includeContent (acc cap samplesOffset samplesSize : Nat) : List Byte :=
  (((asciiBytes ("SPLITMOD_SONG_SIZE = " ++ fmtU samplesOffset ++ "\n")).take acc) ++
    ((asciiBytes ("SPLITMOD_SMP_SIZE = " ++ fmtU samplesSize ++ "\n")).take acc)).take cap

/-- The state after `fwrite` returned the full count for the song file (lines
128-137): the file holds what the flush stored. -/
def songDone (env : Env) (s : State) (name : String) (mod : List Byte) (so : Nat) : State :=
  info (created s (name ++ ".trk") ((mod.take so).take (env.capacity (name ++ ".trk"))))
    ("Written song data: " ++ (name ++ ".trk") ++ " (" ++ fmtU so ++ " bytes).\n")

/-- The state after `fwrite` returned the full count for the song file and
for the sample file (lines 128-149). -/
def samplesDone (env : Env) (s : State) (name : String) (mod : List Byte) (so ss : Nat) :
    State :=
  info (created (songDone env s name mod so) (name ++ ".smp")
      (((mod.drop so).take ss).take (env.capacity (name ++ ".smp"))))
    ("Written sample data: " ++ (name ++ ".smp") ++ " (" ++ fmtU ss ++ " bytes).\n")

/-! ## SplitMod (lines 97-175) -/

/-- Lines 151-164: the include file.  The result is the state, the content of
`nameBuf` and `returnCode`. -/
def writeInclude (env : Env) (name : String) (samplesOffset samplesSize : Nat)
    (s : State) : State × String × Option Int :=
  let nameBuf := name ++ ".i"
  match fopenWb env nameBuf s with
  | none => (s, nameBuf, some 1)
  | some s =>
    let s := (fput env nameBuf
      (asciiBytes ("SPLITMOD_SONG_SIZE = " ++ fmtU samplesOffset ++ "\n")) s).1
    let s := (fput env nameBuf
      (asciiBytes ("SPLITMOD_SMP_SIZE = " ++ fmtU samplesSize ++ "\n")) s).1
    let s := fclose env nameBuf s
    let s := info s ("Written assembler include for MOD_SMP_SIZE: " ++ nameBuf ++ ".\n")
    (s, nameBuf, some 0)

/-- Lines 139-164: the sample file, then the include file. -/
def writeSamples (env : Env) (name : String) (mod : List Byte)
    (samplesOffset samplesSize : Nat) (s : State) : State × String × Option Int :=
  let nameBuf := name ++ ".smp"
  match fopenWb env nameBuf s with
  | none => (s, nameBuf, some 1)
  | some s =>
    match readBytes mod samplesOffset samplesSize with
    | none => (s, nameBuf, none)
    | some data =>
      let (s, bytesWritten) := fput env nameBuf data s
      let s := fclose env nameBuf s
      if bytesWritten != samplesSize then (s, nameBuf, some 1)
      else
        let s := info s
          ("Written sample data: " ++ nameBuf ++ " (" ++ fmtU samplesSize ++ " bytes).\n")
        writeInclude env name samplesOffset samplesSize s

/-- Lines 125-165, the body of `for (;;)`: the song file, then the sample
file, then the include file; each `break` leaves with `returnCode` still 1. -/
def writeArtifacts (env : Env) (name : String) (mod : List Byte)
    (samplesOffset samplesSize : Nat) (s : State) : State × String × Option Int :=
  let nameBuf := name ++ ".trk"
  match fopenWb env nameBuf s with
  | none => (s, nameBuf, some 1)
  | some s =>
    match readBytes mod 0 samplesOffset with
    | none => (s, nameBuf, none)
    | some data =>
      let (s, bytesWritten) := fput env nameBuf data s
      let s := fclose env nameBuf s
      if bytesWritten != samplesOffset then (s, nameBuf, some 1)
      else
        let s := info s
          ("Written song data: " ++ nameBuf ++ " (" ++ fmtU samplesOffset ++ " bytes).\n")
        writeSamples env name mod samplesOffset samplesSize s

/-- Lines 167-174, from the state, `nameBuf` and `returnCode` the loop body
left: a non-zero `returnCode` prints the error and returns 1. -/
def reportErrors (r : State × String × Option Int) : State × Option Int :=
  match r with
  | (s, _, none) => (s, none)
  | (s, nameBuf, some returnCode) =>
    if returnCode != 0 then
      ({ s with stderr := s.stderr ++ ["ERROR: Cannot write '" ++ nameBuf ++ "'.\n"] },
        some 1)
    else
      (s, some 0)

/-- The function `SplitMod(name, mod, len)` with `len = mod.length`: the new
state and the return code, `none` when the run reads outside the buffer. -/
def SplitMod (env : Env) (name : String) (mod : List Byte) (s : State) :
    State × Option Int :=
  if !env.mallocName then
    ({ s with stderr := s.stderr ++ ["\nERROR: Out of memory.\n"] }, some 1)
  else
    match maxPattern mod with
    | none => (s, none)
    | some maxPattern =>
      let samplesOffset := samplesOffsetOf env.sizeBits maxPattern
      let samplesSize := samplesSizeOf env.sizeBits mod.length samplesOffset
      reportErrors (writeArtifacts env name mod samplesOffset samplesSize s)

/-! ## FileSize (lines 73-94) and main (lines 27-70) -/

/-- The function `FileSize` on a file just opened whose content is `data`: the
new state and the size, 0 on failure.  The position at opening is 0 and the
position at the end is the length of the file; each of the four calls either
succeeds or makes the function print the error and return 0. -/
def FileSize (env : Env) (data : List Byte) (fileName : String) (s : State) :
    State × Nat :=
  if env.ftellStart && env.fseekEnd && env.ftellEnd && env.fseekSet then
    (s, data.length % 2 ^ env.sizeBits)
  else
    ({ s with stderr := s.stderr ++ ["\nERROR: Cannot read file '" ++ fileName ++ "'\n"] }, 0)

/-- The case-insensitive comparison of line 40. -/
def isQuietSwitch (arg : String) : Bool :=
  arg.toList.map Char.toLower == ['/', 'q']

/-- The function `main`, `argc` being the length of `argv`: the new state and
the exit code, `none` when the run reads outside the buffer. -/
def main (env : Env) (argv : List String) (s : State) : State × Option Int :=
  let argc := argv.length
  if argc < 2 || argc > 3 then
    ({ s with stderr := s.stderr ++
        ["\nSplitMod - Antiriad <jon@autoitscript.com>\n\n",
         "Splits a ProTracker module into song and sample data for use with\n",
         "Frank Wille's ptPlayer: http://aminet.net/package/mus/play/ptplayer\n\n",
         "Usage: " ++ argv.getD 0 "" ++ " <module> [/q]\n"] }, some 1)
  else
    let s := if argc == 3 && isQuietSwitch (argv.getD 2 "") then { s with g_quiet := true } else s
    let path := argv.getD 1 ""
    match (if env.canRead path then s.files path else none) with
    | none =>
      ({ s with stderr := s.stderr ++ ["\nERROR: Cannot open '" ++ path ++ "'.\n"] }, some 1)
    | some data =>
      let (s, len) := FileSize env data path s
      if len != 0 then
        if env.mallocData then
          if min (min len data.length) env.freadLimit == len then
            SplitMod env path (data.take len) s
          else
            ({ s with stderr := s.stderr ++ ["\nERROR: Read error ('" ++ path ++ "').\n"] },
              some 1)
        else
          ({ s with stderr := s.stderr ++ ["\nERROR: Out of memory.\n"] }, some 1)
      else
        (s, some 1)

/-! ## Concrete inputs -/

/-- A module of 2110 zero bytes: one pattern, so 2108 bytes of song data, and
2 bytes of sample data. -/
def smallModule : List Byte := List.replicate 2110 0

/-- A buffer of 5000 bytes that are all 10: its arrangement table has maximum
10, so its pattern data would end beyond the buffer. -/
def truncatedModule : List Byte := List.replicate 5000 10

/-- An environment with a 32-bit `size_t` in which every call succeeds and
every file accepts any amount of data. -/
def envOk : Env :=
  { sizeBits := 32, canRead := fun _ => true, ftellStart := true, fseekEnd := true,
    ftellEnd := true, fseekSet := true, mallocData := true, freadLimit := 4294967295,
    mallocName := true, canCreate := fun _ => true, accepts := fun _ => 4294967295,
    capacity := fun _ => 4294967295 }

/-- The environment `envOk` with the disk full once `m.trk` and `m.smp` are
written: the file `m.i` can be created and no byte reaches it. -/
def envDiskFull : Env :=
  { envOk with capacity := fun p => if p = "m.i" then 0 else 4294967295 }

/-- The environment `envOk` with the disk full after 1000 bytes of `m.trk`:
`fwrite` takes the whole song into the stream and returns the full count, and
the flush of `fclose` stores 1000 bytes. -/
def envFlushFails : Env :=
  { envOk with capacity := fun p => if p = "m.trk" then 1000 else 4294967295 }

/-- A file system that holds the file `m` with the content of `smallModule`
and nothing else; nothing printed yet. -/
def startState : State :=
  State.init (fun p => if p = "m" then some smallModule else none)

/-! ## The pattern scan -/

theorem maxPatternLoop_eq (mod : List Byte) :
    ∀ (n i acc : Nat), 952 + i + n ≤ mod.length →
      maxPatternLoop mod n i acc =
        some ((((mod.drop (952 + i)).take n).map Fin.val).foldl max acc) := by
  intro n
  induction n with
  | zero => intro i acc _; simp [maxPatternLoop]
  | succ n ih =>
    intro i acc h
    have hi : 952 + i < mod.length := by omega
    have hd : mod.drop (952 + i) = mod[952 + i] :: mod.drop (952 + (i + 1)) := by
      rw [List.drop_eq_getElem_cons hi]; rfl
    rw [maxPatternLoop, List.getElem?_eq_getElem hi]
    simp only
    rw [ih (i + 1) _ (by omega), hd]
    simp only [List.take_succ_cons, List.map_cons, List.foldl_cons]
    congr 2
    by_cases hc : mod[952 + i].val > acc
    · rw [if_pos hc]; omega
    · rw [if_neg hc]; omega

theorem maxPatternLoop_some (mod : List Byte) :
    ∀ (n i acc r : Nat), maxPatternLoop mod n i acc = some r →
      n = 0 ∨ 952 + i + n ≤ mod.length := by
  intro n
  induction n with
  | zero => intro i acc r _; exact Or.inl rfl
  | succ n ih =>
    intro i acc r h
    right
    rw [maxPatternLoop] at h
    cases hg : mod[952 + i]? with
    | none => rw [hg] at h; simp at h
    | some p =>
      rw [hg] at h
      simp only at h
      have hi : 952 + i < mod.length := by
        by_contra hc
        rw [List.getElem?_eq_none (by omega)] at hg
        simp at hg
      rcases ih _ _ _ h with h0 | h1
      · omega
      · omega

theorem foldl_max_ge_init (l : List Nat) : ∀ acc : Nat, acc ≤ l.foldl max acc := by
  induction l with
  | nil => intro acc; simp
  | cons x xs ih =>
    intro acc
    rw [List.foldl_cons]
    exact le_trans (le_max_left acc x) (ih _)

theorem foldl_max_ge_mem (l : List Nat) : ∀ acc : Nat, ∀ x ∈ l, x ≤ l.foldl max acc := by
  induction l with
  | nil => intro acc x hx; simp at hx
  | cons y ys ih =>
    intro acc x hx
    rw [List.foldl_cons]
    rcases List.mem_cons.mp hx with rfl | hx
    · exact le_trans (le_max_right acc x) (foldl_max_ge_init ys _)
    · exact ih _ x hx

theorem foldl_max_mem (l : List Nat) :
    ∀ acc : Nat, l.foldl max acc = acc ∨ l.foldl max acc ∈ l := by
  induction l with
  | nil => intro acc; simp
  | cons y ys ih =>
    intro acc
    rw [List.foldl_cons]
    rcases ih (max acc y) with h | h
    · rw [h]
      rcases le_total acc y with hle | hle
      · right; rw [max_eq_right hle]; exact List.mem_cons_self _ _
      · left; exact max_eq_left hle
    · right; exact List.mem_cons_of_mem _ h

theorem arrangement_length (mod : List Byte) (h : 1080 ≤ mod.length) :
    (arrangement mod).length = 128 := by
  simp only [arrangement, List.length_map, List.length_take, List.length_drop]
  omega

theorem arrangement_lt (mod : List Byte) : ∀ b ∈ arrangement mod, b < 256 := by
  intro b hb
  simp only [arrangement, List.mem_map] at hb
  obtain ⟨x, _, rfl⟩ := hb
  exact x.isLt

theorem maxPattern_eq (mod : List Byte) (h : 1080 ≤ mod.length) :
    maxPattern mod = some (tableMax mod) := by
  rw [maxPattern, maxPatternLoop_eq mod 128 0 0 (by omega)]
  rfl

theorem maxPattern_some (mod : List Byte) (m : Nat) (h : maxPattern mod = some m) :
    1080 ≤ mod.length := by
  rcases maxPatternLoop_some mod 128 0 0 m h with h0 | h1
  · omega
  · omega

theorem tableMax_ge (mod : List Byte) : ∀ b ∈ arrangement mod, b ≤ tableMax mod :=
  foldl_max_ge_mem _ 0

theorem tableMax_mem (mod : List Byte) (h : 1080 ≤ mod.length) :
    tableMax mod ∈ arrangement mod := by
  rcases foldl_max_mem (arrangement mod) 0 with h0 | hm
  · have hlen := arrangement_length mod h
    cases hl : arrangement mod with
    | nil => rw [hl] at hlen; simp at hlen
    | cons x xs =>
      have hx : x ≤ tableMax mod := tableMax_ge mod x (by rw [hl]; exact List.mem_cons_self _ _)
      have h0x : tableMax mod = 0 := h0
      have : x = tableMax mod := by omega
      rw [← hl, ← this, hl]
      exact List.mem_cons_self _ _
  · exact hm

theorem tableMax_le (mod : List Byte) (h : 1080 ≤ mod.length) : tableMax mod ≤ 255 := by
  have := arrangement_lt mod _ (tableMax_mem mod h)
  omega

/-- The maximum of the table is determined by the two properties that define
a maximum. -/
theorem tableMax_unique (mod : List Byte) (m : Nat) (hm : m ∈ arrangement mod)
    (hall : ∀ b ∈ arrangement mod, b ≤ m) (h : 1080 ≤ mod.length) : tableMax mod = m := by
  have h1 := tableMax_ge mod m hm
  have h2 := hall _ (tableMax_mem mod h)
  omega

theorem samplesOffsetOf_eq (w m : Nat) (h : 1084 + (m + 1) * 1024 < 2 ^ w) :
    samplesOffsetOf w m = 1084 + (m + 1) * 1024 := by
  have h1 : m + 1 < 2 ^ w := by omega
  have h2 : (m + 1) * 1024 < 2 ^ w := by omega
  have h3 : (m + 1) * 2 ^ 10 = (m + 1) * 1024 := by norm_num
  rw [samplesOffsetOf, Nat.mod_eq_of_lt h1, Nat.shiftLeft_eq, h3, Nat.mod_eq_of_lt h2,
    Nat.mod_eq_of_lt (by omega)]
  omega

theorem two_pow_ge (w : Nat) (hw : 32 ≤ w) : 4294967296 ≤ 2 ^ w := by
  have := Nat.pow_le_pow_right (show 0 < 2 by norm_num) hw
  norm_num at this
  exact this

theorem samplesOffsetOf_byte (w m : Nat) (hw : 32 ≤ w) (hm : m ≤ 255) :
    samplesOffsetOf w m = 1084 + (m + 1) * 1024 := by
  have := two_pow_ge w hw
  exact samplesOffsetOf_eq w m (by omega)

theorem samplesSizeOf_le (w len so : Nat) (hso : so ≤ len) (hlen : len < 2 ^ w) :
    samplesSizeOf w len so = len - so := by
  unfold samplesSizeOf
  have h1 : ((len : Int) - (so : Int)) = ((len - so : Nat) : Int) := by omega
  rw [h1]
  have h2 : ((2 : Int) ^ w) = ((2 ^ w : Nat) : Int) := by push_cast; rfl
  rw [h2, ← Int.natCast_mod, Int.toNat_natCast]
  exact Nat.mod_eq_of_lt (by omega)

theorem samplesSizeOf_wrap (w len so : Nat) (hlt : len < so) (hso : so ≤ 2 ^ w) :
    samplesSizeOf w len so = 2 ^ w - (so - len) := by
  unfold samplesSizeOf
  have h2 : ((2 : Int) ^ w) = ((2 ^ w : Nat) : Int) := by push_cast; rfl
  have h1 : ((len : Int) - (so : Int)) =
      ((2 ^ w - (so - len) : Nat) : Int) + ((2 ^ w : Nat) : Int) * (-1) := by omega
  rw [h2, h1, Int.add_mul_emod_self_left, ← Int.natCast_mod, Int.toNat_natCast]
  exact Nat.mod_eq_of_lt (by omega)

theorem samplesOffset_eq (w : Nat) (hw : 32 ≤ w) (mod : List Byte) (h : 1080 ≤ mod.length) :
    samplesOffset w mod = some (1084 + (tableMax mod + 1) * 1024) := by
  rw [samplesOffset, maxPattern_eq mod h, Option.map_some',
    samplesOffsetOf_byte w _ hw (tableMax_le mod h)]

theorem samplesOffset_some (w : Nat) (mod : List Byte) (so : Nat)
    (h : samplesOffset w mod = some so) :
    1080 ≤ mod.length ∧ so = samplesOffsetOf w (tableMax mod) := by
  unfold samplesOffset at h
  cases hm : maxPattern mod with
  | none => rw [hm] at h; simp at h
  | some m =>
    have hl := maxPattern_some mod m hm
    rw [maxPattern_eq mod hl] at hm
    rw [maxPattern_eq mod hl] at h
    simp only [Option.map_some', Option.some.injEq] at h
    exact ⟨hl, h.symm⟩

theorem arrangement_replicate (n : Nat) (b : Byte) (h : 1080 ≤ n) :
    arrangement (List.replicate n b) = List.replicate 128 b.val := by
  have h1 : min 128 (n - 952) = 128 := by omega
  simp [arrangement, List.drop_replicate, List.take_replicate, h1]

theorem tableMax_replicate (n : Nat) (b : Byte) (h : 1080 ≤ n) :
    tableMax (List.replicate n b) = b.val := by
  apply tableMax_unique _ _ _ _ (by simpa using h)
  · rw [arrangement_replicate n b h]; simp
  · intro x hx
    rw [arrangement_replicate n b h] at hx
    exact le_of_eq (List.eq_of_mem_replicate hx)

theorem samplesOffset_replicate (w : Nat) (hw : 32 ≤ w) (n : Nat) (b : Byte) (h : 1080 ≤ n) :
    samplesOffset w (List.replicate n b) = some (1084 + (b.val + 1) * 1024) := by
  rw [samplesOffset_eq w hw _ (by simpa using h), tableMax_replicate n b h]

theorem mem_arrangement_replicate (n : Nat) (b : Byte) (h : 1080 ≤ n) :
    b.val ∈ arrangement (List.replicate n b) := by
  rw [arrangement_replicate n b h]
  exact List.mem_replicate.mpr ⟨by decide, rfl⟩

theorem le_of_mem_arrangement_replicate (n : Nat) (b : Byte) (h : 1080 ≤ n) :
    ∀ x ∈ arrangement (List.replicate n b), x ≤ b.val := by
  intro x hx
  rw [arrangement_replicate n b h] at hx
  exact le_of_eq (List.eq_of_mem_replicate hx)

theorem length_replicate_ge (n : Nat) (b : Byte) : n ≤ (List.replicate n b).length :=
  le_of_eq (List.length_replicate n b).symm

/-! ## The claims about the format analysis -/

/-- C1: for every buffer that contains the bytes 952..1079, the arrangement
table has 128 entries and a maximum `m` (one of its entries, every entry at
most `m`), and `samplesOffset` is `1084 + (m + 1) * 1024` for that maximum;
in particular 2108 for `m = 0` and 132156 for `m = 127`. -/
theorem C1_samplesOffset_of_table_maximum (w : Nat) (hw : 32 ≤ w) (mod : List Byte)
    (h : 1080 ≤ mod.length) :
    (arrangement mod).length = 128 ∧
    (∃ m, m ∈ arrangement mod ∧ ∀ b ∈ arrangement mod, b ≤ m) ∧
    (∀ m, m ∈ arrangement mod → (∀ b ∈ arrangement mod, b ≤ m) →
      samplesOffset w mod = some (1084 + (m + 1) * 1024) ∧
      (m = 0 → samplesOffset w mod = some 2108) ∧
      (m = 127 → samplesOffset w mod = some 132156)) := by
  refine ⟨arrangement_length mod h, ⟨tableMax mod, tableMax_mem mod h, tableMax_ge mod⟩, ?_⟩
  intro m hm hall
  have hmax := tableMax_unique mod m hm hall h
  have hso := samplesOffset_eq w hw mod h
  rw [hmax] at hso
  refine ⟨hso, ?_, ?_⟩
  · intro h0; rw [hso, h0]
  · intro h127; rw [hso, h127]

/-- C1 at a concrete input: a buffer of 1080 zero bytes on a 32-bit `size_t`
has table maximum 0 and `samplesOffset` 2108. -/
theorem C1_samplesOffset_of_table_maximum_witness :
    32 ≤ 32 ∧ 1080 ≤ (List.replicate 1080 (0 : Byte)).length ∧
      samplesOffset 32 (List.replicate 1080 (0 : Byte)) = some 2108 :=
  ⟨by decide, length_replicate_ge 1080 0,
    ((C1_samplesOffset_of_table_maximum 32 (by decide) (List.replicate 1080 (0 : Byte))
      (length_replicate_ge 1080 0)).2.2 0 (mem_arrangement_replicate 1080 0 (by decide))
      (le_of_mem_arrangement_replicate 1080 0 (by decide))).2.1 rfl⟩

/-- C9, as the code has it: for every buffer whose arrangement table has
maximum byte value 10, `samplesOffset` is 12348, that is 1084 + 11 * 1024. -/
theorem C9_samplesOffset_of_maximum_ten (w : Nat) (hw : 32 ≤ w) (mod : List Byte)
    (h : 1080 ≤ mod.length) (hmem : 10 ∈ arrangement mod)
    (hall : ∀ b ∈ arrangement mod, b ≤ 10) :
    samplesOffset w mod = some 12348 := by
  rw [samplesOffset_eq w hw mod h, tableMax_unique mod 10 hmem hall h]

/-- C9 at a concrete input: the buffer of 1080 bytes that are all 10. -/
theorem C9_samplesOffset_of_maximum_ten_witness :
    32 ≤ 32 ∧ 1080 ≤ (List.replicate 1080 (10 : Byte)).length ∧
      10 ∈ arrangement (List.replicate 1080 (10 : Byte)) ∧
      (∀ b ∈ arrangement (List.replicate 1080 (10 : Byte)), b ≤ 10) ∧
      samplesOffset 32 (List.replicate 1080 (10 : Byte)) = some 12348 :=
  ⟨by decide, length_replicate_ge 1080 10, mem_arrangement_replicate 1080 10 (by decide),
    le_of_mem_arrangement_replicate 1080 10 (by decide),
    C9_samplesOffset_of_maximum_ten 32 (by decide) (List.replicate 1080 (10 : Byte))
      (length_replicate_ge 1080 10) (mem_arrangement_replicate 1080 10 (by decide))
      (le_of_mem_arrangement_replicate 1080 10 (by decide))⟩

/-- C9 as the specification states it fails: the buffer of 1080 bytes that are
all 10 has table maximum 10 and its `samplesOffset` is 12348, not 12364. -/
theorem C9_counterexample :
    10 ∈ arrangement (List.replicate 1080 (10 : Byte)) ∧
    (∀ b ∈ arrangement (List.replicate 1080 (10 : Byte)), b ≤ 10) ∧
    samplesOffset 32 (List.replicate 1080 (10 : Byte)) = some 12348 ∧
    samplesOffset 32 (List.replicate 1080 (10 : Byte)) ≠ some 12364 := by
  have hso := samplesOffset_replicate 32 (by decide) 1080 (10 : Byte) (by decide)
  refine ⟨mem_arrangement_replicate 1080 10 (by decide),
    le_of_mem_arrangement_replicate 1080 10 (by decide), hso, ?_⟩
  rw [hso]
  decide

/-- C10: the pattern count does not wrap in 8 bits.  A table maximum of 255
gives `samplesOffset` 263228, not 1084; for every buffer `samplesOffset` lies
between 2108 and 263228 and exceeds 1084 by a positive multiple of 1024; and
`samplesOffset` is monotone in the table maximum. -/
theorem C10_pattern_count_does_not_wrap (w : Nat) (hw : 32 ≤ w) (mod : List Byte)
    (h : 1080 ≤ mod.length) :
    samplesOffsetOf w 255 = 263228 ∧
    ((255 ∈ arrangement mod) → samplesOffset w mod = some 263228) ∧
    (∃ so, samplesOffset w mod = some so ∧ 2108 ≤ so ∧ so ≤ 263228 ∧
      ∃ k, 0 < k ∧ so - 1084 = 1024 * k) ∧
    (∀ (other : List Byte) (m₁ m₂ so₁ so₂ : Nat), maxPattern mod = some m₁ →
      maxPattern other = some m₂ → samplesOffset w mod = some so₁ →
      samplesOffset w other = some so₂ → m₁ ≤ m₂ → so₁ ≤ so₂) := by
  have hso := samplesOffset_eq w hw mod h
  have hle := tableMax_le mod h
  refine ⟨samplesOffsetOf_byte w 255 hw (le_refl _), ?_, ?_, ?_⟩
  · intro h255
    have : tableMax mod = 255 := by
      have := tableMax_ge mod 255 h255
      omega
    rw [hso, this]
  · refine ⟨_, hso, by omega, by omega, tableMax mod + 1, by omega, by omega⟩
  · intro other m₁ m₂ so₁ so₂ hm₁ hm₂ h₁ h₂ hm
    have ho := maxPattern_some other m₂ hm₂
    rw [maxPattern_eq mod h] at hm₁
    rw [maxPattern_eq other ho] at hm₂
    rw [hso] at h₁
    rw [samplesOffset_eq w hw other ho] at h₂
    simp only [Option.some.injEq] at hm₁ hm₂ h₁ h₂
    subst hm₁ hm₂ h₁ h₂
    have := Nat.mul_le_mul_right 1024 (Nat.succ_le_succ hm)
    omega

/-- C10 at a concrete input: the buffer of 1080 bytes that are all 255 has
`samplesOffset` 263228. -/
theorem C10_pattern_count_does_not_wrap_witness :
    32 ≤ 32 ∧ 1080 ≤ (List.replicate 1080 (255 : Byte)).length ∧
      samplesOffset 32 (List.replicate 1080 (255 : Byte)) = some 263228 :=
  ⟨by decide, length_replicate_ge 1080 255,
    (C10_pattern_count_does_not_wrap 32 (by decide) (List.replicate 1080 (255 : Byte))
      (length_replicate_ge 1080 255)).2.1 (mem_arrangement_replicate 1080 255 (by decide))⟩

theorem tableMax_zero (mod : List Byte) (h : 1080 ≤ mod.length)
    (hz : ∀ b ∈ arrangement mod, b = 0) : tableMax mod = 0 :=
  hz _ (tableMax_mem mod h)

/-- C2: for every buffer of length `L` with `samplesOffset ≤ L`, the song
region is (0, `samplesOffset`) and the sample region is (`samplesOffset`,
`samplesSize`); the song region ends where the sample region starts, no
offset lies in both, and `samplesOffset + samplesSize = L`.  A buffer of
length `1084 + 1024 + S` whose 128 arrangement bytes are all 0 has song length
2108 and sample length `S`. -/
theorem C2_regions_span_buffer (w : Nat) (mod : List Byte) (hlen : mod.length < 2 ^ w) :
    (∀ so, samplesOffset w mod = some so → so ≤ mod.length →
      ∃ ss sg sm, samplesSize w mod = some ss ∧
        songRegion w mod = some sg ∧ sampleRegion w mod = some sm ∧
        sg = (0, so) ∧ sm = (so, ss) ∧
        sg.1 + sg.2 = sm.1 ∧
        (∀ k, ¬ ((sg.1 ≤ k ∧ k < sg.1 + sg.2) ∧ (sm.1 ≤ k ∧ k < sm.1 + sm.2))) ∧
        sm.1 + sm.2 = mod.length ∧
        sg.2 + sm.2 = mod.length) ∧
    (∀ S, mod.length = 1084 + 1024 + S → (∀ b ∈ arrangement mod, b = 0) →
      songRegion w mod = some (0, 2108) ∧ sampleRegion w mod = some (2108, S)) := by
  constructor
  · intro so hso hle
    have hss := samplesSizeOf_le w mod.length so hle hlen
    refine ⟨mod.length - so, (0, so), (so, mod.length - so), ?_, ?_, ?_, rfl, rfl, ?_, ?_, ?_, ?_⟩
    · rw [samplesSize, hso, Option.map_some', hss]
    · rw [songRegion, hso, Option.map_some']
    · rw [sampleRegion, hso, Option.map_some', hss]
    · simp
    · intro k hk
      simp only at hk
      omega
    · simp only; omega
    · simp only; omega
  · intro S hS hz
    have h1080 : 1080 ≤ mod.length := by omega
    have hso : samplesOffset w mod = some 2108 := by
      rw [samplesOffset, maxPattern_eq mod h1080, tableMax_zero mod h1080 hz, Option.map_some',
        samplesOffsetOf_eq w 0 (by omega)]
    have hss := samplesSizeOf_le w mod.length 2108 (by omega) hlen
    constructor
    · rw [songRegion, hso, Option.map_some']
    · have hS2 : mod.length - 2108 = S := by omega
      rw [sampleRegion, hso, Option.map_some', hss, hS2]

/-- C2 at a concrete input: 2110 zero bytes split into 2108 bytes of song and
2 bytes of samples. -/
theorem C2_regions_span_buffer_witness :
    (List.replicate 2110 (0 : Byte)).length < 2 ^ 32 ∧
      songRegion 32 (List.replicate 2110 (0 : Byte)) = some (0, 2108) ∧
      sampleRegion 32 (List.replicate 2110 (0 : Byte)) = some (2108, 2) :=
  ⟨by rw [List.length_replicate]; decide,
    (C2_regions_span_buffer 32 (List.replicate 2110 (0 : Byte))
      (by rw [List.length_replicate]; decide)).2 2 (by rw [List.length_replicate])
      (fun b hb => Nat.le_zero.mp (le_of_mem_arrangement_replicate 2110 0 (by decide) b hb))⟩

/-! ## Paths -/

theorem append_ne (name a b : String) (h : a ≠ b) : name ++ a ≠ name ++ b := by
  intro heq
  apply h
  have hd := congrArg String.data heq
  rw [String.data_append, String.data_append] at hd
  exact String.ext (List.append_cancel_left hd)

theorem trk_ne_smp (name : String) : name ++ ".trk" ≠ name ++ ".smp" :=
  append_ne name _ _ (by decide)

theorem trk_ne_inc (name : String) : name ++ ".trk" ≠ name ++ ".i" :=
  append_ne name _ _ (by decide)

theorem smp_ne_inc (name : String) : name ++ ".smp" ≠ name ++ ".i" :=
  append_ne name _ _ (by decide)

/-! ## The three output steps -/

theorem info_files (s : State) (line : String) : (info s line).files = s.files := by
  unfold info; split <;> rfl

theorem info_opened (s : State) (line : String) : (info s line).opened = s.opened := by
  unfold info; split <;> rfl

theorem info_stderr (s : State) (line : String) : (info s line).stderr = s.stderr := by
  unfold info; split <;> rfl

theorem info_buffer (s : State) (line : String) : (info s line).buffer = s.buffer := by
  unfold info; split <;> rfl

theorem fopenWb_fail (env : Env) (path : String) (s : State)
    (h : env.canCreate path = false) : fopenWb env path s = none := by
  simp [fopenWb, h]

theorem fopenWb_ok (env : Env) (path : String) (s : State)
    (h : env.canCreate path = true) : fopenWb env path s = some (created s path []) := by
  simp [fopenWb, h, created]

/-- The count a write call returns is the count the stream took: the length
of the data or, when that is more, what the environment lets the call take. -/
theorem fput_count (env : Env) (path : String) (data : List Byte) (s : State) :
    (fput env path data s).2 = min data.length (env.accepts path) := by
  simp only [fput, List.length_take]
  omega

/-- One write and the close on a stream just opened: the file holds what the
flush stored of what the stream took. -/
theorem fclose_fput_created (env : Env) (path : String) (data : List Byte) (s : State) :
    fclose env path (fput env path data (created s path [])).1 =
      created s path ((data.take (env.accepts path)).take (env.capacity path)) := by
  simp only [fclose, fput, created, List.nil_append]
  congr 1
  funext p
  by_cases hp : p = path <;> simp [hp]

theorem writeInclude_fail (env : Env) (name : String) (so ss : Nat) (s : State)
    (h : env.canCreate (name ++ ".i") = false) :
    writeInclude env name so ss s = (s, name ++ ".i", some 1) := by
  simp [writeInclude, fopenWb, h]

theorem writeInclude_ok (env : Env) (name : String) (so ss : Nat) (s : State)
    (h : env.canCreate (name ++ ".i") = true) :
    (writeInclude env name so ss s).2 = (name ++ ".i", some 0) ∧
    (writeInclude env name so ss s).1.opened = s.opened ++ [name ++ ".i"] ∧
    (writeInclude env name so ss s).1.stderr = s.stderr ∧
    (writeInclude env name so ss s).1.files (name ++ ".i") =
      some (includeContent (env.accepts (name ++ ".i")) (env.capacity (name ++ ".i")) so ss) ∧
    (∀ p, p ≠ name ++ ".i" → (writeInclude env name so ss s).1.files p = s.files p) := by
  simp only [writeInclude, fopenWb, h, if_true]
  refine ⟨trivial, ?_, ?_, ?_, ?_⟩
  · simp [info_opened, fput, fclose]
  · simp [info_stderr, fput, fclose]
  · simp [info_files, fput, fclose, includeContent]
  · intro p hp
    simp [info_files, fput, fclose, hp]

theorem readBytes_ok (mod : List Byte) (off n : Nat) (h : off + n ≤ mod.length) :
    readBytes mod off n = some ((mod.drop off).take n) := by
  simp [readBytes, h]

theorem readBytes_undef (mod : List Byte) (off n : Nat) (h : mod.length < off + n) :
    readBytes mod off n = none := by
  simp [readBytes, Nat.not_le.mpr h]

theorem readBytes_length (mod : List Byte) (off n : Nat) (h : off + n ≤ mod.length) :
    ((mod.drop off).take n).length = n := by
  rw [List.length_take, List.length_drop]
  omega

theorem writeSamples_fail (env : Env) (name : String) (mod : List Byte) (so ss : Nat)
    (s : State) (h : env.canCreate (name ++ ".smp") = false) :
    writeSamples env name mod so ss s = (s, name ++ ".smp", some 1) := by
  simp [writeSamples, fopenWb_fail env _ s h]

theorem writeSamples_undef (env : Env) (name : String) (mod : List Byte) (so ss : Nat)
    (s : State) (h : env.canCreate (name ++ ".smp") = true) (hr : mod.length < so + ss) :
    writeSamples env name mod so ss s = (created s (name ++ ".smp") [], name ++ ".smp", none) := by
  simp [writeSamples, fopenWb_ok env _ s h, readBytes_undef mod so ss hr]

theorem writeSamples_short (env : Env) (name : String) (mod : List Byte) (so ss : Nat)
    (s : State) (h : env.canCreate (name ++ ".smp") = true) (hr : so + ss ≤ mod.length)
    (hc : env.accepts (name ++ ".smp") < ss) :
    writeSamples env name mod so ss s =
      (created s (name ++ ".smp")
        ((((mod.drop so).take ss).take (env.accepts (name ++ ".smp"))).take
          (env.capacity (name ++ ".smp"))),
        name ++ ".smp", some 1) := by
  have hl := readBytes_length mod so ss hr
  have hcount := fput_count env (name ++ ".smp") ((mod.drop so).take ss)
    (created s (name ++ ".smp") [])
  rw [hl] at hcount
  have hne : (fput env (name ++ ".smp") ((mod.drop so).take ss)
      (created s (name ++ ".smp") [])).2 ≠ ss := by omega
  simp only [writeSamples, fopenWb_ok env _ s h, readBytes_ok mod so ss hr,
    fclose_fput_created]
  simp [hne]

theorem writeSamples_ok (env : Env) (name : String) (mod : List Byte) (so ss : Nat)
    (s : State) (h : env.canCreate (name ++ ".smp") = true) (hr : so + ss ≤ mod.length)
    (hc : ss ≤ env.accepts (name ++ ".smp")) :
    writeSamples env name mod so ss s =
      writeInclude env name so ss
        (info (created s (name ++ ".smp")
            (((mod.drop so).take ss).take (env.capacity (name ++ ".smp"))))
          ("Written sample data: " ++ (name ++ ".smp") ++ " (" ++ fmtU ss ++ " bytes).\n")) := by
  have hl := readBytes_length mod so ss hr
  have hcount := fput_count env (name ++ ".smp") ((mod.drop so).take ss)
    (created s (name ++ ".smp") [])
  rw [hl] at hcount
  have heq : (fput env (name ++ ".smp") ((mod.drop so).take ss)
      (created s (name ++ ".smp") [])).2 = ss := by omega
  have h2 : ((mod.drop so).take ss).take (env.accepts (name ++ ".smp")) =
      (mod.drop so).take ss := by
    apply List.take_of_length_le
    omega
  simp only [writeSamples, fopenWb_ok env _ s h, readBytes_ok mod so ss hr,
    fclose_fput_created, h2]
  simp [heq]

theorem writeArtifacts_fail (env : Env) (name : String) (mod : List Byte) (so ss : Nat)
    (s : State) (h : env.canCreate (name ++ ".trk") = false) :
    writeArtifacts env name mod so ss s = (s, name ++ ".trk", some 1) := by
  simp [writeArtifacts, fopenWb_fail env _ s h]

theorem writeArtifacts_undef (env : Env) (name : String) (mod : List Byte) (so ss : Nat)
    (s : State) (h : env.canCreate (name ++ ".trk") = true) (hr : mod.length < so) :
    writeArtifacts env name mod so ss s =
      (created s (name ++ ".trk") [], name ++ ".trk", none) := by
  simp [writeArtifacts, fopenWb_ok env _ s h, readBytes_undef mod 0 so (by omega)]

theorem writeArtifacts_short (env : Env) (name : String) (mod : List Byte) (so ss : Nat)
    (s : State) (h : env.canCreate (name ++ ".trk") = true) (hr : so ≤ mod.length)
    (hc : env.accepts (name ++ ".trk") < so) :
    writeArtifacts env name mod so ss s =
      (created s (name ++ ".trk")
        (((mod.take so).take (env.accepts (name ++ ".trk"))).take
          (env.capacity (name ++ ".trk"))),
        name ++ ".trk", some 1) := by
  have hl := readBytes_length mod 0 so (by omega)
  rw [List.drop_zero] at hl
  have hcount := fput_count env (name ++ ".trk") (mod.take so) (created s (name ++ ".trk") [])
  rw [hl] at hcount
  have hne : (fput env (name ++ ".trk") (mod.take so)
      (created s (name ++ ".trk") [])).2 ≠ so := by omega
  simp only [writeArtifacts, fopenWb_ok env _ s h, readBytes_ok mod 0 so (by omega),
    List.drop_zero, fclose_fput_created]
  simp [hne]

theorem writeArtifacts_ok (env : Env) (name : String) (mod : List Byte) (so ss : Nat)
    (s : State) (h : env.canCreate (name ++ ".trk") = true) (hr : so ≤ mod.length)
    (hc : so ≤ env.accepts (name ++ ".trk")) :
    writeArtifacts env name mod so ss s =
      writeSamples env name mod so ss (songDone env s name mod so) := by
  have hl := readBytes_length mod 0 so (by omega)
  rw [List.drop_zero] at hl
  have hcount := fput_count env (name ++ ".trk") (mod.take so) (created s (name ++ ".trk") [])
  rw [hl] at hcount
  have heq : (fput env (name ++ ".trk") (mod.take so)
      (created s (name ++ ".trk") [])).2 = so := by omega
  have h2 : (mod.take so).take (env.accepts (name ++ ".trk")) = mod.take so := by
    apply List.take_of_length_le
    omega
  simp only [writeArtifacts, fopenWb_ok env _ s h, readBytes_ok mod 0 so (by omega),
    List.drop_zero, fclose_fput_created, h2]
  simp [heq, songDone]

/-! ## The runs of SplitMod, outcome by outcome -/

theorem maxPattern_none (mod : List Byte) (h : mod.length < 1080) : maxPattern mod = none := by
  cases hm : maxPattern mod with
  | none => rfl
  | some m =>
    have := maxPattern_some mod m hm
    omega

theorem SplitMod_nomem (env : Env) (name : String) (mod : List Byte) (s : State)
    (hm : env.mallocName = false) :
    SplitMod env name mod s =
      ({ s with stderr := s.stderr ++ ["\nERROR: Out of memory.\n"] }, some 1) := by
  simp [SplitMod, hm]

theorem SplitMod_table_outside (env : Env) (name : String) (mod : List Byte) (s : State)
    (hm : env.mallocName = true) (h : mod.length < 1080) :
    SplitMod env name mod s = (s, none) := by
  simp [SplitMod, hm, maxPattern_none mod h]

theorem SplitMod_unfold (env : Env) (name : String) (mod : List Byte) (s : State)
    (hm : env.mallocName = true) (h : 1080 ≤ mod.length) :
    SplitMod env name mod s =
      reportErrors (writeArtifacts env name mod (samplesOffsetOf env.sizeBits (tableMax mod))
        (samplesSizeOf env.sizeBits mod.length (samplesOffsetOf env.sizeBits (tableMax mod))) s) := by
  simp [SplitMod, hm, maxPattern_eq mod h]

theorem reportErrors_fail (s : State) (nameBuf : String) :
    reportErrors (s, nameBuf, some 1) =
      ({ s with stderr := s.stderr ++ ["ERROR: Cannot write '" ++ nameBuf ++ "'.\n"] },
        some 1) := by
  simp [reportErrors]

theorem reportErrors_undef (s : State) (nameBuf : String) :
    reportErrors (s, nameBuf, none) = (s, none) := rfl

theorem reportErrors_ok (s : State) (nameBuf : String) :
    reportErrors (s, nameBuf, some 0) = (s, some 0) := by
  simp [reportErrors]

theorem SplitMod_song_create_fail (env : Env) (name : String) (mod : List Byte) (s : State)
    (hm : env.mallocName = true) (h : 1080 ≤ mod.length)
    (hc : env.canCreate (name ++ ".trk") = false) :
    SplitMod env name mod s =
      ({ s with stderr := s.stderr ++ ["ERROR: Cannot write '" ++ (name ++ ".trk") ++ "'.\n"] },
        some 1) := by
  rw [SplitMod_unfold env name mod s hm h, writeArtifacts_fail env name mod _ _ s hc,
    reportErrors_fail]

theorem SplitMod_song_undef (env : Env) (name : String) (mod : List Byte) (s : State)
    (hm : env.mallocName = true) (h : 1080 ≤ mod.length)
    (hc : env.canCreate (name ++ ".trk") = true)
    (hso : mod.length < samplesOffsetOf env.sizeBits (tableMax mod)) :
    SplitMod env name mod s = (created s (name ++ ".trk") [], none) := by
  rw [SplitMod_unfold env name mod s hm h, writeArtifacts_undef env name mod _ _ s hc hso,
    reportErrors_undef]

theorem SplitMod_song_short (env : Env) (name : String) (mod : List Byte) (s : State)
    (hm : env.mallocName = true) (h : 1080 ≤ mod.length)
    (hc : env.canCreate (name ++ ".trk") = true)
    (hso : samplesOffsetOf env.sizeBits (tableMax mod) ≤ mod.length)
    (hcap : env.accepts (name ++ ".trk") < samplesOffsetOf env.sizeBits (tableMax mod)) :
    (SplitMod env name mod s).2 = some 1 ∧
    (SplitMod env name mod s).1.opened = s.opened ++ [name ++ ".trk"] ∧
    (∀ p, p ≠ name ++ ".trk" → (SplitMod env name mod s).1.files p = s.files p) := by
  rw [SplitMod_unfold env name mod s hm h, writeArtifacts_short env name mod _ _ s hc hso hcap,
    reportErrors_fail]
  refine ⟨rfl, rfl, ?_⟩
  intro p hp
  simp [created, hp]

theorem songDone_opened (env : Env) (s : State) (name : String) (mod : List Byte) (so : Nat) :
    (songDone env s name mod so).opened = s.opened ++ [name ++ ".trk"] := by
  rw [songDone, info_opened]; rfl

theorem songDone_stderr (env : Env) (s : State) (name : String) (mod : List Byte) (so : Nat) :
    (songDone env s name mod so).stderr = s.stderr := by
  rw [songDone, info_stderr]; rfl

theorem songDone_files (env : Env) (s : State) (name : String) (mod : List Byte) (so : Nat) (p : String) :
    (songDone env s name mod so).files p =
      if p = name ++ ".trk" then some ((mod.take so).take (env.capacity (name ++ ".trk")))
      else s.files p := by
  rw [songDone, info_files]; rfl

theorem samplesDone_opened (env : Env) (s : State) (name : String) (mod : List Byte) (so ss : Nat) :
    (samplesDone env s name mod so ss).opened = s.opened ++ [name ++ ".trk", name ++ ".smp"] := by
  rw [samplesDone, info_opened]
  simp [created, songDone_opened]

theorem samplesDone_stderr (env : Env) (s : State) (name : String) (mod : List Byte) (so ss : Nat) :
    (samplesDone env s name mod so ss).stderr = s.stderr := by
  rw [samplesDone, info_stderr]
  simp [created, songDone_stderr]

theorem samplesDone_files (env : Env) (s : State) (name : String) (mod : List Byte) (so ss : Nat)
    (p : String) :
    (samplesDone env s name mod so ss).files p =
      if p = name ++ ".smp" then
        some (((mod.drop so).take ss).take (env.capacity (name ++ ".smp")))
      else if p = name ++ ".trk" then some ((mod.take so).take (env.capacity (name ++ ".trk")))
      else s.files p := by
  rw [samplesDone, info_files]
  simp [created, songDone_files]

theorem SplitMod_after_song (env : Env) (name : String) (mod : List Byte) (s : State)
    (hm : env.mallocName = true) (h : 1080 ≤ mod.length)
    (hc : env.canCreate (name ++ ".trk") = true)
    (hso : samplesOffsetOf env.sizeBits (tableMax mod) ≤ mod.length)
    (hcap : samplesOffsetOf env.sizeBits (tableMax mod) ≤ env.accepts (name ++ ".trk")) :
    SplitMod env name mod s =
      reportErrors (writeSamples env name mod (samplesOffsetOf env.sizeBits (tableMax mod))
        (samplesSizeOf env.sizeBits mod.length (samplesOffsetOf env.sizeBits (tableMax mod)))
        (songDone env s name mod (samplesOffsetOf env.sizeBits (tableMax mod)))) := by
  rw [SplitMod_unfold env name mod s hm h, writeArtifacts_ok env name mod _ _ s hc hso hcap]

theorem SplitMod_after_samples (env : Env) (name : String) (mod : List Byte) (s : State)
    (hm : env.mallocName = true) (h : 1080 ≤ mod.length)
    (hc : env.canCreate (name ++ ".trk") = true)
    (hso : samplesOffsetOf env.sizeBits (tableMax mod) ≤ mod.length)
    (hcap : samplesOffsetOf env.sizeBits (tableMax mod) ≤ env.accepts (name ++ ".trk"))
    (hc2 : env.canCreate (name ++ ".smp") = true)
    (hss : samplesOffsetOf env.sizeBits (tableMax mod) +
      samplesSizeOf env.sizeBits mod.length (samplesOffsetOf env.sizeBits (tableMax mod)) ≤
        mod.length)
    (hcap2 : samplesSizeOf env.sizeBits mod.length (samplesOffsetOf env.sizeBits (tableMax mod)) ≤
      env.accepts (name ++ ".smp")) :
    SplitMod env name mod s =
      reportErrors (writeInclude env name (samplesOffsetOf env.sizeBits (tableMax mod))
        (samplesSizeOf env.sizeBits mod.length (samplesOffsetOf env.sizeBits (tableMax mod)))
        (samplesDone env s name mod (samplesOffsetOf env.sizeBits (tableMax mod))
          (samplesSizeOf env.sizeBits mod.length
            (samplesOffsetOf env.sizeBits (tableMax mod))))) := by
  rw [SplitMod_after_song env name mod s hm h hc hso hcap,
    writeSamples_ok env name mod _ _ _ hc2 hss hcap2]
  rfl

theorem SplitMod_samples_create_fail (env : Env) (name : String) (mod : List Byte) (s : State)
    (hm : env.mallocName = true) (h : 1080 ≤ mod.length)
    (hc : env.canCreate (name ++ ".trk") = true)
    (hso : samplesOffsetOf env.sizeBits (tableMax mod) ≤ mod.length)
    (hcap : samplesOffsetOf env.sizeBits (tableMax mod) ≤ env.accepts (name ++ ".trk"))
    (hc2 : env.canCreate (name ++ ".smp") = false) :
    (SplitMod env name mod s).2 = some 1 ∧
    (SplitMod env name mod s).1.opened = s.opened ++ [name ++ ".trk"] ∧
    (∀ p, p ≠ name ++ ".trk" → (SplitMod env name mod s).1.files p = s.files p) := by
  rw [SplitMod_after_song env name mod s hm h hc hso hcap,
    writeSamples_fail env name mod _ _ _ hc2, reportErrors_fail]
  refine ⟨rfl, songDone_opened _ _ _ _ _, ?_⟩
  intro p hp
  simp [songDone_files, hp]

theorem SplitMod_samples_undef (env : Env) (name : String) (mod : List Byte) (s : State)
    (hm : env.mallocName = true) (h : 1080 ≤ mod.length)
    (hc : env.canCreate (name ++ ".trk") = true)
    (hso : samplesOffsetOf env.sizeBits (tableMax mod) ≤ mod.length)
    (hcap : samplesOffsetOf env.sizeBits (tableMax mod) ≤ env.accepts (name ++ ".trk"))
    (hc2 : env.canCreate (name ++ ".smp") = true)
    (hss : mod.length < samplesOffsetOf env.sizeBits (tableMax mod) +
      samplesSizeOf env.sizeBits mod.length (samplesOffsetOf env.sizeBits (tableMax mod))) :
    (SplitMod env name mod s).2 = none ∧
    (SplitMod env name mod s).1.opened = s.opened ++ [name ++ ".trk", name ++ ".smp"] ∧
    (∀ p, p ≠ name ++ ".trk" → p ≠ name ++ ".smp" →
      (SplitMod env name mod s).1.files p = s.files p) := by
  rw [SplitMod_after_song env name mod s hm h hc hso hcap,
    writeSamples_undef env name mod _ _ _ hc2 hss, reportErrors_undef]
  refine ⟨rfl, ?_, ?_⟩
  · simp [created, songDone_opened]
  · intro p hp hp2
    simp [created, songDone_files, hp, hp2]

theorem SplitMod_samples_short (env : Env) (name : String) (mod : List Byte) (s : State)
    (hm : env.mallocName = true) (h : 1080 ≤ mod.length)
    (hc : env.canCreate (name ++ ".trk") = true)
    (hso : samplesOffsetOf env.sizeBits (tableMax mod) ≤ mod.length)
    (hcap : samplesOffsetOf env.sizeBits (tableMax mod) ≤ env.accepts (name ++ ".trk"))
    (hc2 : env.canCreate (name ++ ".smp") = true)
    (hss : samplesOffsetOf env.sizeBits (tableMax mod) +
      samplesSizeOf env.sizeBits mod.length (samplesOffsetOf env.sizeBits (tableMax mod)) ≤
        mod.length)
    (hcap2 : env.accepts (name ++ ".smp") <
      samplesSizeOf env.sizeBits mod.length (samplesOffsetOf env.sizeBits (tableMax mod))) :
    (SplitMod env name mod s).2 = some 1 ∧
    (SplitMod env name mod s).1.opened = s.opened ++ [name ++ ".trk", name ++ ".smp"] ∧
    (∀ p, p ≠ name ++ ".trk" → p ≠ name ++ ".smp" →
      (SplitMod env name mod s).1.files p = s.files p) := by
  rw [SplitMod_after_song env name mod s hm h hc hso hcap,
    writeSamples_short env name mod _ _ _ hc2 hss hcap2, reportErrors_fail]
  refine ⟨rfl, ?_, ?_⟩
  · simp [created, songDone_opened]
  · intro p hp hp2
    simp [created, songDone_files, hp, hp2]

theorem SplitMod_include_create_fail (env : Env) (name : String) (mod : List Byte) (s : State)
    (hm : env.mallocName = true) (h : 1080 ≤ mod.length)
    (hc : env.canCreate (name ++ ".trk") = true)
    (hso : samplesOffsetOf env.sizeBits (tableMax mod) ≤ mod.length)
    (hcap : samplesOffsetOf env.sizeBits (tableMax mod) ≤ env.accepts (name ++ ".trk"))
    (hc2 : env.canCreate (name ++ ".smp") = true)
    (hss : samplesOffsetOf env.sizeBits (tableMax mod) +
      samplesSizeOf env.sizeBits mod.length (samplesOffsetOf env.sizeBits (tableMax mod)) ≤
        mod.length)
    (hcap2 : samplesSizeOf env.sizeBits mod.length (samplesOffsetOf env.sizeBits (tableMax mod)) ≤
      env.accepts (name ++ ".smp"))
    (hc3 : env.canCreate (name ++ ".i") = false) :
    (SplitMod env name mod s).2 = some 1 ∧
    (SplitMod env name mod s).1.opened = s.opened ++ [name ++ ".trk", name ++ ".smp"] ∧
    (∀ p, p ≠ name ++ ".trk" → p ≠ name ++ ".smp" →
      (SplitMod env name mod s).1.files p = s.files p) := by
  rw [SplitMod_after_samples env name mod s hm h hc hso hcap hc2 hss hcap2,
    writeInclude_fail env name _ _ _ hc3, reportErrors_fail]
  refine ⟨rfl, samplesDone_opened _ _ _ _ _ _, ?_⟩
  intro p hp hp2
  simp [samplesDone_files, hp, hp2]

theorem SplitMod_success (env : Env) (name : String) (mod : List Byte) (s : State)
    (hm : env.mallocName = true) (h : 1080 ≤ mod.length)
    (hc : env.canCreate (name ++ ".trk") = true)
    (hso : samplesOffsetOf env.sizeBits (tableMax mod) ≤ mod.length)
    (hcap : samplesOffsetOf env.sizeBits (tableMax mod) ≤ env.accepts (name ++ ".trk"))
    (hc2 : env.canCreate (name ++ ".smp") = true)
    (hss : samplesOffsetOf env.sizeBits (tableMax mod) +
      samplesSizeOf env.sizeBits mod.length (samplesOffsetOf env.sizeBits (tableMax mod)) ≤
        mod.length)
    (hcap2 : samplesSizeOf env.sizeBits mod.length (samplesOffsetOf env.sizeBits (tableMax mod)) ≤
      env.accepts (name ++ ".smp"))
    (hc3 : env.canCreate (name ++ ".i") = true) :
    (SplitMod env name mod s).2 = some 0 ∧
    (SplitMod env name mod s).1.opened =
      s.opened ++ [name ++ ".trk", name ++ ".smp", name ++ ".i"] ∧
    (SplitMod env name mod s).1.stderr = s.stderr ∧
    (SplitMod env name mod s).1.files (name ++ ".trk") =
      some ((mod.take (samplesOffsetOf env.sizeBits (tableMax mod))).take
        (env.capacity (name ++ ".trk"))) ∧
    (SplitMod env name mod s).1.files (name ++ ".smp") =
      some (((mod.drop (samplesOffsetOf env.sizeBits (tableMax mod))).take
        (samplesSizeOf env.sizeBits mod.length
          (samplesOffsetOf env.sizeBits (tableMax mod)))).take
        (env.capacity (name ++ ".smp"))) ∧
    (SplitMod env name mod s).1.files (name ++ ".i") =
      some (includeContent (env.accepts (name ++ ".i")) (env.capacity (name ++ ".i"))
        (samplesOffsetOf env.sizeBits (tableMax mod))
        (samplesSizeOf env.sizeBits mod.length (samplesOffsetOf env.sizeBits (tableMax mod)))) ∧
    (∀ p, p ≠ name ++ ".trk" → p ≠ name ++ ".smp" → p ≠ name ++ ".i" →
      (SplitMod env name mod s).1.files p = s.files p) := by
  obtain ⟨h2, hop, herr, hinc, hother⟩ := writeInclude_ok env name
    (samplesOffsetOf env.sizeBits (tableMax mod))
    (samplesSizeOf env.sizeBits mod.length (samplesOffsetOf env.sizeBits (tableMax mod)))
    (samplesDone env s name mod (samplesOffsetOf env.sizeBits (tableMax mod))
      (samplesSizeOf env.sizeBits mod.length (samplesOffsetOf env.sizeBits (tableMax mod)))) hc3
  rw [SplitMod_after_samples env name mod s hm h hc hso hcap hc2 hss hcap2]
  generalize writeInclude env name _ _ _ = x at h2 hop herr hinc hother ⊢
  obtain ⟨x1, x2⟩ := x
  simp only at h2 hop herr hinc hother
  subst h2
  rw [reportErrors_ok]
  refine ⟨rfl, ?_, ?_, ?_, ?_, hinc, ?_⟩
  · rw [hop, samplesDone_opened]; simp
  · rw [herr, samplesDone_stderr]
  · rw [hother _ (trk_ne_inc name), samplesDone_files]
    simp [trk_ne_smp name]
  · rw [hother _ (smp_ne_inc name), samplesDone_files]
    simp
  · intro p hp hp2 hp3
    rw [hother p hp3, samplesDone_files]
    simp [hp, hp2]

theorem smallModule_length : smallModule.length = 2110 :=
  List.length_replicate _ _

theorem smallModule_tableMax : tableMax smallModule = 0 :=
  tableMax_replicate 2110 0 (by decide)

theorem smallModule_take : smallModule.take 2108 = List.replicate 2108 0 := by
  rw [smallModule, List.take_replicate]
  rfl

theorem smallModule_drop : smallModule.drop 2108 = [0, 0] := by
  rw [smallModule, List.drop_replicate]
  rfl

/-- The run of `SplitMod` on `smallModule` in an environment with a 32-bit
`size_t` where the three files can be created and the two `fwrite` calls
return the full count. -/
theorem SplitMod_smallModule (env : Env) (name : String) (s : State)
    (hbits : env.sizeBits = 32) (hm : env.mallocName = true)
    (hc : env.canCreate (name ++ ".trk") = true) (hcap : 2108 ≤ env.accepts (name ++ ".trk"))
    (hc2 : env.canCreate (name ++ ".smp") = true) (hcap2 : 2 ≤ env.accepts (name ++ ".smp"))
    (hc3 : env.canCreate (name ++ ".i") = true) :
    (SplitMod env name smallModule s).2 = some 0 ∧
    (SplitMod env name smallModule s).1.opened =
      s.opened ++ [name ++ ".trk", name ++ ".smp", name ++ ".i"] ∧
    (SplitMod env name smallModule s).1.stderr = s.stderr ∧
    (SplitMod env name smallModule s).1.files (name ++ ".trk") =
      some ((List.replicate 2108 0).take (env.capacity (name ++ ".trk"))) ∧
    (SplitMod env name smallModule s).1.files (name ++ ".smp") =
      some (([0, 0] : List Byte).take (env.capacity (name ++ ".smp"))) ∧
    (SplitMod env name smallModule s).1.files (name ++ ".i") =
      some (includeContent (env.accepts (name ++ ".i")) (env.capacity (name ++ ".i"))
        2108 2) ∧
    (∀ p, p ≠ name ++ ".trk" → p ≠ name ++ ".smp" → p ≠ name ++ ".i" →
      (SplitMod env name smallModule s).1.files p = s.files p) := by
  have hso : samplesOffsetOf env.sizeBits (tableMax smallModule) = 2108 := by
    rw [hbits, smallModule_tableMax]; rfl
  have hss : samplesSizeOf env.sizeBits smallModule.length 2108 = 2 := by
    rw [hbits, smallModule_length]; rfl
  have h := SplitMod_success env name smallModule s hm
    (by rw [smallModule_length]; decide) hc
    (by rw [hso, smallModule_length]; decide) (by rw [hso]; exact hcap) hc2
    (by rw [hso, hss, smallModule_length]) (by rw [hso, hss]; exact hcap2) hc3
  rw [hso, hss, smallModule_take, smallModule_drop] at h
  exact h

/-- A run that returns 0 went through every step. -/
theorem SplitMod_zero_inv (env : Env) (name : String) (mod : List Byte) (s : State)
    (hrc : (SplitMod env name mod s).2 = some 0) :
    env.mallocName = true ∧ 1080 ≤ mod.length ∧
    env.canCreate (name ++ ".trk") = true ∧
    samplesOffsetOf env.sizeBits (tableMax mod) ≤ mod.length ∧
    samplesOffsetOf env.sizeBits (tableMax mod) ≤ env.accepts (name ++ ".trk") ∧
    env.canCreate (name ++ ".smp") = true ∧
    samplesOffsetOf env.sizeBits (tableMax mod) +
      samplesSizeOf env.sizeBits mod.length (samplesOffsetOf env.sizeBits (tableMax mod)) ≤
        mod.length ∧
    samplesSizeOf env.sizeBits mod.length (samplesOffsetOf env.sizeBits (tableMax mod)) ≤
      env.accepts (name ++ ".smp") ∧
    env.canCreate (name ++ ".i") = true := by
  cases hm : env.mallocName with
  | false => rw [SplitMod_nomem env name mod s hm] at hrc; simp at hrc
  | true =>
  by_cases h : 1080 ≤ mod.length
  swap
  · rw [SplitMod_table_outside env name mod s hm (by omega)] at hrc; simp at hrc
  cases hc : env.canCreate (name ++ ".trk") with
  | false => rw [SplitMod_song_create_fail env name mod s hm h hc] at hrc; simp at hrc
  | true =>
  by_cases hso : samplesOffsetOf env.sizeBits (tableMax mod) ≤ mod.length
  swap
  · rw [SplitMod_song_undef env name mod s hm h hc (by omega)] at hrc; simp at hrc
  by_cases hcap : samplesOffsetOf env.sizeBits (tableMax mod) ≤ env.accepts (name ++ ".trk")
  swap
  · rw [(SplitMod_song_short env name mod s hm h hc hso (by omega)).1] at hrc; simp at hrc
  cases hc2 : env.canCreate (name ++ ".smp") with
  | false =>
    rw [(SplitMod_samples_create_fail env name mod s hm h hc hso hcap hc2).1] at hrc
    simp at hrc
  | true =>
  by_cases hss : samplesOffsetOf env.sizeBits (tableMax mod) +
      samplesSizeOf env.sizeBits mod.length (samplesOffsetOf env.sizeBits (tableMax mod)) ≤
        mod.length
  swap
  · rw [(SplitMod_samples_undef env name mod s hm h hc hso hcap hc2 (by omega)).1] at hrc
    simp at hrc
  by_cases hcap2 : samplesSizeOf env.sizeBits mod.length
      (samplesOffsetOf env.sizeBits (tableMax mod)) ≤ env.accepts (name ++ ".smp")
  swap
  · rw [(SplitMod_samples_short env name mod s hm h hc hso hcap hc2 hss (by omega)).1] at hrc
    simp at hrc
  cases hc3 : env.canCreate (name ++ ".i") with
  | false =>
    rw [(SplitMod_include_create_fail env name mod s hm h hc hso hcap hc2 hss hcap2 hc3).1]
      at hrc
    simp at hrc
  | true => exact ⟨rfl, h, rfl, hso, hcap, rfl, hss, hcap2, rfl⟩

/-! ## The runs of main -/

/-- With two arguments, a readable input file of positive size that fits
`size_t`, and every input step succeeding, `main` returns what `SplitMod`
returns on the content of the file. -/
theorem main_eq_SplitMod (env : Env) (prog path : String) (data : List Byte) (s : State)
    (hread : env.canRead path = true) (hfile : s.files path = some data)
    (h1 : env.ftellStart = true) (h2 : env.fseekEnd = true) (h3 : env.ftellEnd = true)
    (h4 : env.fseekSet = true) (hpos : 0 < data.length)
    (hfit : data.length < 2 ^ env.sizeBits) (hmalloc : env.mallocData = true)
    (hfread : data.length ≤ env.freadLimit) :
    main env [prog, path] s = SplitMod env path data s := by
  have hmod : data.length % 2 ^ env.sizeBits = data.length := Nat.mod_eq_of_lt hfit
  have hne : data.length ≠ 0 := by omega
  have hmin : min data.length env.freadLimit = data.length := by omega
  simp [main, FileSize, hread, hfile, h1, h2, h3, h4, hmod, hne, hmalloc, hmin]

/-! ## The claims about the run -/

/-- C3, as the code has it: for every buffer whose computed `samplesOffset`
exceeds its length, `SplitMod` makes no format check.  The sample size it
computes is the wrapped-around `2 ^ w - (samplesOffset - L)`; when the song
file can be created it is created and the write that follows reads outside
the buffer; when it cannot, the result is 1 with the message of a failed
write. -/
theorem C3_no_format_check (env : Env) (name : String) (mod : List Byte) (s : State)
    (hw : 32 ≤ env.sizeBits) (hm : env.mallocName = true) (so : Nat)
    (hso : samplesOffset env.sizeBits mod = some so) (hlt : mod.length < so) :
    samplesSize env.sizeBits mod = some (2 ^ env.sizeBits - (so - mod.length)) ∧
    (env.canCreate (name ++ ".trk") = true →
      SplitMod env name mod s = (created s (name ++ ".trk") [], none)) ∧
    (env.canCreate (name ++ ".trk") = false →
      SplitMod env name mod s =
        ({ s with stderr := s.stderr ++ ["ERROR: Cannot write '" ++ (name ++ ".trk") ++ "'.\n"] },
          some 1)) := by
  obtain ⟨h, hso2⟩ := samplesOffset_some env.sizeBits mod so hso
  have hle := tableMax_le mod h
  have hpow := two_pow_ge env.sizeBits hw
  have hso3 := samplesOffsetOf_byte env.sizeBits (tableMax mod) hw hle
  refine ⟨?_, ?_, ?_⟩
  · rw [samplesSize, hso, Option.map_some', samplesSizeOf_wrap env.sizeBits mod.length so hlt
      (by omega)]
  · intro hc
    exact SplitMod_song_undef env name mod s hm h hc (by omega)
  · intro hc
    exact SplitMod_song_create_fail env name mod s hm h hc

theorem truncatedModule_samplesOffset : samplesOffset 32 truncatedModule = some 12348 :=
  samplesOffset_replicate 32 (by decide) 5000 10 (by decide)

theorem truncatedModule_length : truncatedModule.length = 5000 :=
  List.length_replicate _ _

/-- C3 at a concrete input: the buffer of 5000 bytes with table maximum 10. -/
theorem C3_no_format_check_witness :
    32 ≤ envOk.sizeBits ∧ envOk.mallocName = true ∧
      samplesOffset envOk.sizeBits truncatedModule = some 12348 ∧
      truncatedModule.length < 12348 ∧
      samplesSize envOk.sizeBits truncatedModule =
        some (2 ^ envOk.sizeBits - (12348 - truncatedModule.length)) :=
  ⟨by decide, rfl, truncatedModule_samplesOffset, by rw [truncatedModule_length]; decide,
    (C3_no_format_check envOk "m" truncatedModule startState (by decide) rfl 12348
      truncatedModule_samplesOffset (by rw [truncatedModule_length]; decide)).1⟩

/-- C3 as the specification states it fails: for the buffer of 5000 bytes with
table maximum 10 the computed `samplesOffset` 12348 exceeds the length, the
sample size is the wrapped-around 4294959948, and the run prints no error and
creates the song file. -/
theorem C3_counterexample :
    (10 ∈ arrangement truncatedModule ∧ ∀ b ∈ arrangement truncatedModule, b ≤ 10) ∧
    truncatedModule.length = 5000 ∧
    samplesOffset 32 truncatedModule = some 12348 ∧
    samplesSize 32 truncatedModule = some 4294959948 ∧
    (SplitMod envOk "m" truncatedModule startState).1.opened = ["m.trk"] ∧
    (SplitMod envOk "m" truncatedModule startState).1.stderr = [] := by
  have hrun : SplitMod envOk "m" truncatedModule startState =
      (created startState ("m" ++ ".trk") [], none) :=
    SplitMod_song_undef envOk "m" truncatedModule startState rfl
      (by rw [truncatedModule_length]; decide) rfl
      (by
        rw [truncatedModule_length, truncatedModule, tableMax_replicate 5000 10 (by decide)]
        decide)
  refine ⟨⟨mem_arrangement_replicate 5000 10 (by decide),
    le_of_mem_arrangement_replicate 5000 10 (by decide)⟩, truncatedModule_length,
    truncatedModule_samplesOffset, ?_, ?_, ?_⟩
  · rw [samplesSize, truncatedModule_samplesOffset, truncatedModule_length]
    rfl
  · rw [hrun]; rfl
  · rw [hrun]; rfl

theorem smallModule_samplesOffset : samplesOffset 32 smallModule = some 2108 :=
  samplesOffset_replicate 32 (by decide) 2110 0 (by decide)

theorem path_trk : ("m" ++ ".trk" : String) = "m.trk" := rfl

theorem path_smp : ("m" ++ ".smp" : String) = "m.smp" := rfl

theorem path_inc : ("m" ++ ".i" : String) = "m.i" := rfl

theorem take_all_song : (List.replicate 2108 (0 : Byte)).take 4294967295 =
    List.replicate 2108 0 := by
  rw [List.take_replicate]
  rfl

theorem take_all_samples : ([0, 0] : List Byte).take 4294967295 = [0, 0] := rfl

theorem take_part_song : (List.replicate 2108 (0 : Byte)).take 1000 =
    List.replicate 1000 0 := by
  rw [List.take_replicate]
  rfl

/-- C6 on the code: the run on `smallModule` with every call succeeding
returns 0 and creates `m.trk`, `m.smp` and `m.i` in this order; the include
file is at `m.i` with both lines in it, and no file `m.smp.i` exists. -/
theorem C6_include_file_is_at_name_dot_i :
    (SplitMod envOk "m" smallModule startState).2 = some 0 ∧
    (SplitMod envOk "m" smallModule startState).1.opened = ["m.trk", "m.smp", "m.i"] ∧
    (SplitMod envOk "m" smallModule startState).1.files "m.i" =
      some (asciiBytes "SPLITMOD_SONG_SIZE = 2108\nSPLITMOD_SMP_SIZE = 2\n") ∧
    (SplitMod envOk "m" smallModule startState).1.files "m.smp.i" = none := by
  obtain ⟨h1, h2, _, _, _, h3, h4⟩ :=
    SplitMod_smallModule envOk "m" startState rfl rfl rfl (by decide) rfl (by decide) rfl
  have hc : includeContent (envOk.accepts "m.i") (envOk.capacity "m.i") 2108 2 =
      asciiBytes "SPLITMOD_SONG_SIZE = 2108\nSPLITMOD_SMP_SIZE = 2\n" := rfl
  rw [path_trk, path_smp, path_inc] at h2
  rw [path_inc, hc] at h3
  refine ⟨h1, ?_, h3, ?_⟩
  · rw [h2]; rfl
  · rw [h4 "m.smp.i" (by decide) (by decide) (by decide)]
    rfl

/-- C5 on the code: with the disk full once `m.trk` and `m.smp` are written,
the run on `smallModule` returns 0, `m.trk` has 2108 bytes and `m.smp` has 2,
and the include file `m.i` is empty, so it does not hold the two lines. -/
theorem C5_include_file_cut_short :
    (SplitMod envDiskFull "m" smallModule startState).2 = some 0 ∧
    (SplitMod envDiskFull "m" smallModule startState).1.files "m.trk" =
      some (List.replicate 2108 0) ∧
    (SplitMod envDiskFull "m" smallModule startState).1.files "m.smp" = some [0, 0] ∧
    (SplitMod envDiskFull "m" smallModule startState).1.files "m.i" = some [] ∧
    (SplitMod envDiskFull "m" smallModule startState).1.files "m.i" ≠
      some (asciiBytes "SPLITMOD_SONG_SIZE = 2108\nSPLITMOD_SMP_SIZE = 2\n") := by
  obtain ⟨h1, _, _, h2, h3, h4, _⟩ :=
    SplitMod_smallModule envDiskFull "m" startState rfl rfl rfl (by decide) rfl (by decide) rfl
  have hc : includeContent (envDiskFull.accepts "m.i") (envDiskFull.capacity "m.i") 2108 2 =
      [] := rfl
  have hT : envDiskFull.capacity "m.trk" = 4294967295 := rfl
  have hS : envDiskFull.capacity "m.smp" = 4294967295 := rfl
  rw [path_trk, hT, take_all_song] at h2
  rw [path_smp, hS, take_all_samples] at h3
  rw [path_inc, hc] at h4
  refine ⟨h1, h2, h3, h4, ?_⟩
  rw [h4]
  decide

/-- C7 on the code: with the disk full once `m.trk` and `m.smp` are written,
the program run as `SplitMod m` exits with code 0 although the include file
`m.i` is empty. -/
theorem C7_exit_zero_with_empty_include_file :
    (main envDiskFull ["SplitMod", "m"] startState).2 = some 0 ∧
    (main envDiskFull ["SplitMod", "m"] startState).1.files "m.i" = some [] ∧
    asciiBytes "SPLITMOD_SONG_SIZE = 2108\nSPLITMOD_SMP_SIZE = 2\n" ≠ [] := by
  have hmain : main envDiskFull ["SplitMod", "m"] startState =
      SplitMod envDiskFull "m" smallModule startState :=
    main_eq_SplitMod envDiskFull "SplitMod" "m" smallModule startState rfl rfl rfl rfl rfl rfl
      (by rw [smallModule_length]; decide) (by rw [smallModule_length]; decide) rfl
      (by rw [smallModule_length]; decide)
  obtain ⟨h1, _, _, _, _, h4, _⟩ :=
    SplitMod_smallModule envDiskFull "m" startState rfl rfl rfl (by decide) rfl (by decide) rfl
  have hc : includeContent (envDiskFull.accepts "m.i") (envDiskFull.capacity "m.i") 2108 2 =
      [] := rfl
  rw [path_inc, hc] at h4
  rw [hmain]
  exact ⟨h1, h4, by decide⟩


/-- C4 on the code: with the disk full after 1000 bytes of `m.trk`, `fwrite`
returns the full count 2108 and the flush of the unchecked `fclose` stores
1000 bytes; the run on `smallModule` returns 0, `m.trk` holds 1000 bytes and
not the 2108 bytes before `samplesOffset`, and `m.trk` followed by `m.smp` is
not the buffer. -/
theorem C4_return_zero_with_truncated_song_file :
    (SplitMod envFlushFails "m" smallModule startState).2 = some 0 ∧
    samplesOffset 32 smallModule = some 2108 ∧
    (SplitMod envFlushFails "m" smallModule startState).1.files "m.trk" =
      some (List.replicate 1000 0) ∧
    (SplitMod envFlushFails "m" smallModule startState).1.files "m.smp" = some [0, 0] ∧
    (SplitMod envFlushFails "m" smallModule startState).1.files "m.trk" ≠
      some (smallModule.take 2108) ∧
    (List.replicate 1000 0 ++ [0, 0] : List Byte) ≠ smallModule := by
  obtain ⟨h1, _, _, h2, h3, _, _⟩ :=
    SplitMod_smallModule envFlushFails "m" startState rfl rfl rfl (by decide) rfl (by decide)
      rfl
  have hT : envFlushFails.capacity "m.trk" = 1000 := rfl
  have hS : envFlushFails.capacity "m.smp" = 4294967295 := rfl
  rw [path_trk, hT, take_part_song] at h2
  rw [path_smp, hS, take_all_samples] at h3
  refine ⟨h1, smallModule_samplesOffset, h2, h3, ?_, ?_⟩
  · rw [h2, smallModule_take]
    intro heq
    have hlen := congrArg List.length (Option.some.inj heq)
    rw [List.length_replicate, List.length_replicate] at hlen
    exact absurd hlen (by decide)
  · intro heq
    have hlen := congrArg List.length heq
    rw [List.length_append, List.length_replicate, smallModule_length] at hlen
    exact absurd hlen (by decide)

/-- What does hold of the two files: after a run that returns 0, when the
flushes of the song file and the sample file stored every byte, `name.trk`
holds the buffer before `samplesOffset`, `name.smp` the rest, and together
they are the buffer. -/
theorem SplitMod_zero_contents (env : Env) (name : String) (mod : List Byte) (s : State)
    (hlen : mod.length < 2 ^ env.sizeBits)
    (hrc : (SplitMod env name mod s).2 = some 0)
    (hT : samplesOffsetOf env.sizeBits (tableMax mod) ≤ env.capacity (name ++ ".trk"))
    (hS : mod.length - samplesOffsetOf env.sizeBits (tableMax mod) ≤
      env.capacity (name ++ ".smp")) :
    (SplitMod env name mod s).1.files (name ++ ".trk") =
      some (mod.take (samplesOffsetOf env.sizeBits (tableMax mod))) ∧
    (SplitMod env name mod s).1.files (name ++ ".smp") =
      some (mod.drop (samplesOffsetOf env.sizeBits (tableMax mod))) := by
  obtain ⟨hm, h, hc, hso, hcap, hc2, hss, hcap2, hc3⟩ := SplitMod_zero_inv env name mod s hrc
  obtain ⟨_, _, _, htrk, hsmp, _, _⟩ :=
    SplitMod_success env name mod s hm h hc hso hcap hc2 hss hcap2 hc3
  have hsize := samplesSizeOf_le env.sizeBits mod.length _ hso hlen
  have h1 : (mod.take (samplesOffsetOf env.sizeBits (tableMax mod))).take
      (env.capacity (name ++ ".trk")) =
      mod.take (samplesOffsetOf env.sizeBits (tableMax mod)) := by
    apply List.take_of_length_le
    rw [List.length_take]
    omega
  have h2 : (mod.drop (samplesOffsetOf env.sizeBits (tableMax mod))).take
      (samplesSizeOf env.sizeBits mod.length (samplesOffsetOf env.sizeBits (tableMax mod))) =
      mod.drop (samplesOffsetOf env.sizeBits (tableMax mod)) := by
    rw [hsize]
    apply List.take_of_length_le
    rw [List.length_drop]
  have h3 : (mod.drop (samplesOffsetOf env.sizeBits (tableMax mod))).take
      (env.capacity (name ++ ".smp")) =
      mod.drop (samplesOffsetOf env.sizeBits (tableMax mod)) := by
    apply List.take_of_length_le
    rw [List.length_drop]
    exact hS
  rw [h1] at htrk
  rw [h2, h3] at hsmp
  exact ⟨htrk, hsmp⟩

end Splitmod
